import Mathlib

/-!
# MasteryTrack — Practice Timer & Analytics Engine, verified model

A shallow embedding of the core of the MasteryTrack deliberate-practice
tracker: the timer state machine, the session ledger and the analytics
engine, together with the pieces of the TypeScript frontend that the
verified properties touch (the `useTimer` hook's elapsed-seconds updates
and the dashboard's progress clamping).

The repository ships only the TypeScript frontend; the Tauri backend that
implements the timer state machine, the ledger and the analytics is not
part of the source tree, so those components are modelled from the
specification (each such definition says so in its doc comment).
Timestamps are modelled as natural numbers of seconds; durations in
minutes are rationals, matching the spec's "minutes with fractional
precision".
-/

namespace MasteryTrack

/-- Reason attached to an automatic pause: the user went idle, or a
distracting application came to the foreground. -/
inductive AutoPauseReason where
  | idle
  | distractingApp
  deriving DecidableEq, Repr

/-- Phase of the timer state machine: `Idle`, `Running`, `ManuallyPaused`
or `AutoPaused{reason}`. -/
inductive Phase where
  | idle
  | running
  | manuallyPaused
  | autoPaused (reason : AutoPauseReason)
  deriving DecidableEq, Repr

/-- Reflection fields attached to a session at stop time or via edit. -/
structure Reflection where
  what_practiced : Option String := none
  what_learned : Option String := none
  next_focus : Option String := none
  notes : Option String := none
  deriving DecidableEq, Repr

/-- A persisted practice session. `end_time` is optional in the record
type; the ledger invariant says it is always present for persisted rows. -/
structure Session where
  id : Nat
  start_time : Nat
  end_time : Option Nat
  duration_minutes : ℚ
  reflection : Reflection
  deriving DecidableEq, Repr

/-- Modelled from the spec: `TimerState`, the single in-memory source of
truth. `started_at` is the start of the current running segment,
`accumulated_seconds` the seconds counted in prior segments of the current
session, `session_start` the start timestamp of the in-progress session
record allocated by `start()` (used as the persisted `start_time`). -/
structure TimerState where
  phase : Phase
  started_at : Option Nat
  accumulated_seconds : Nat
  current_session_id : Option Nat
  session_start : Option Nat
  deriving DecidableEq, Repr

/-- The initial `Idle` timer state, created once at process start. -/
def TimerState.initial : TimerState :=
  { phase := .idle
    started_at := none
    accumulated_seconds := 0
    current_session_id := none
    session_start := none }

/-- Errors raised by timer commands issued in a forbidding phase. -/
inductive TimerError where
  | AlreadyRunning
  | NotRunning
  | NotPaused
  deriving DecidableEq, Repr

/-- Seconds elapsed since an optional segment start. -/
def elapsedSince (started : Option Nat) (now : Nat) : Nat :=
  match started with
  | some t0 => now - t0
  | none => 0

/-- Modelled from the spec: `Idle --start()--> Running` records
`started_at = now`, `accumulated_seconds = 0` and allocates
`current_session_id`; fails with `AlreadyRunning` when not `Idle`. -/
def startTimer (now sid : Nat) (s : TimerState) : Except TimerError TimerState :=
  match s.phase with
  | .idle =>
      .ok { phase := .running
            started_at := some now
            accumulated_seconds := 0
            current_session_id := some sid
            session_start := some now }
  | _ => .error .AlreadyRunning

/-- Modelled from the spec: `Running --pause()--> ManuallyPaused` folds the
elapsed running time into `accumulated_seconds` and clears `started_at`;
fails with `NotRunning` when the phase is not `Running`. -/
def pauseTimer (now : Nat) (s : TimerState) : Except TimerError TimerState :=
  match s.phase with
  | .running =>
      .ok { s with
            phase := .manuallyPaused
            started_at := none
            accumulated_seconds := s.accumulated_seconds + elapsedSince s.started_at now }
  | _ => .error .NotRunning

/-- Modelled from the spec: `ManuallyPaused --resume()--> Running` sets a
fresh `started_at = now`; fails with `NotPaused` otherwise. -/
def resumeTimer (now : Nat) (s : TimerState) : Except TimerError TimerState :=
  match s.phase with
  | .manuallyPaused =>
      .ok { s with phase := .running, started_at := some now }
  | _ => .error .NotPaused

/-- Total seconds of the session as computed by `stop()`:
`accumulated_seconds`, plus the live elapsed segment when `Running`. -/
def stopSeconds (now : Nat) (s : TimerState) : Nat :=
  s.accumulated_seconds +
    (if s.phase = .running then elapsedSince s.started_at now else 0)

/-- Modelled from the spec: `{Running, ManuallyPaused, AutoPaused}
--stop(reflection)--> Idle` computes the final duration, persists a
completed session with that duration and the reflection fields, and resets
to `Idle`; stopping from `Idle` fails with `NotRunning`. -/
def stopTimer (now : Nat) (refl : Reflection) (s : TimerState) :
    Except TimerError (TimerState × Session) :=
  match s.phase with
  | .idle => .error .NotRunning
  | _ =>
      .ok (TimerState.initial,
        { id := s.current_session_id.getD 0
          start_time := s.session_start.getD now
          end_time := some now
          duration_minutes := (stopSeconds now s : ℚ) / 60
          reflection := refl })

/-- Modelled from the spec: singleton `Settings` configuration. Allow/block
lists are case-insensitive substring matchers. -/
structure Settings where
  skill_name : String
  daily_goal_minutes : Nat
  idle_timeout_minutes : Nat
  productivity_mode_enabled : Bool
  allowed_apps : List String
  blocked_apps : List String
  deriving DecidableEq, Repr

/-- Test that `needle` occurs as a contiguous sublist of `hay`. -/
def containsSub (needle hay : List Char) : Bool :=
  (List.range (hay.length + 1)).any fun i => needle.isPrefixOf (hay.drop i)

/-- Case-insensitive substring match of an app name against a pattern list. -/
def appMatches (pats : List String) (app : String) : Bool :=
  pats.any fun p =>
    containsSub (p.toList.map Char.toLower) (app.toList.map Char.toLower)

/-- Modelled from the spec: the blocked-app condition for a tick —
productivity mode is on and the active application matches `blocked_apps`,
or fails to match `allowed_apps` when that list is non-empty. -/
def blockedCond (cfg : Settings) (app : String) : Bool :=
  cfg.productivity_mode_enabled &&
    (appMatches cfg.blocked_apps app ||
      (!cfg.allowed_apps.isEmpty && !appMatches cfg.allowed_apps app))

/-- Modelled from the spec: the idle-timeout condition — idle seconds
reported by the probe reach `idle_timeout_minutes × 60`. -/
def idleCond (cfg : Settings) (idleSecs : Nat) : Bool :=
  cfg.idle_timeout_minutes * 60 ≤ idleSecs

/-- Modelled from the spec: the periodic tick. From `Running`, an
auto-pause condition folds the elapsed segment into `accumulated_seconds`
and records a single `AutoPaused` reason; the spec states twice that the
idle check takes precedence when both conditions hold simultaneously, so
the idle condition is tested first. From `AutoPaused`, the machine
silently returns to `Running` once the user is active again and no blocked
app is in the foreground. Other phases are unaffected by ticks. -/
def tickTimer (now : Nat) (cfg : Settings) (idleSecs : Nat) (app : String)
    (s : TimerState) : TimerState :=
  match s.phase with
  | .running =>
      if idleCond cfg idleSecs then
        { s with
          phase := .autoPaused .idle
          started_at := none
          accumulated_seconds := s.accumulated_seconds + elapsedSince s.started_at now }
      else if blockedCond cfg app then
        { s with
          phase := .autoPaused .distractingApp
          started_at := none
          accumulated_seconds := s.accumulated_seconds + elapsedSince s.started_at now }
      else s
  | .autoPaused _ =>
      if !idleCond cfg idleSecs && !blockedCond cfg app then
        { s with phase := .running, started_at := some now }
      else s
  | _ => s

/-- Manual timer commands. -/
inductive Cmd where
  | start
  | pause
  | resume
  | stop
  deriving DecidableEq, Repr

/-- Run a timed sequence of manual commands from a state, threading the
fresh session-id counter and collecting every session persisted by a
`stop`; the whole run fails if any command is rejected. -/
def execTrace : List (Nat × Cmd) → TimerState → Nat →
    Except TimerError (TimerState × List Session)
  | [], s, _ => .ok (s, [])
  | (t, c) :: rest, s, nid =>
    match c with
    | .start =>
        match startTimer t nid s with
        | .error e => .error e
        | .ok s' => execTrace rest s' (nid + 1)
    | .pause =>
        match pauseTimer t s with
        | .error e => .error e
        | .ok s' => execTrace rest s' nid
    | .resume =>
        match resumeTimer t s with
        | .error e => .error e
        | .ok s' => execTrace rest s' nid
    | .stop =>
        match stopTimer t {} s with
        | .error e => .error e
        | .ok (s', sess) =>
            match execTrace rest s' nid with
            | .error e => .error e
            | .ok (s'', tail) => .ok (s'', sess :: tail)

/-- Modelled from the spec's words (the reference side of the duration
claim): the Running-phase wall-clock seconds of each session of a trace,
computed directly from the command timestamps — `since` is the start of
the current running interval, `total` the closed running seconds so far;
each `stop` emits the session's total and paused intervals contribute
nothing. -/
def specRunningSeconds : List (Nat × Cmd) → Option Nat → Nat → List Nat
  | [], _, _ => []
  | (t, c) :: rest, since, total =>
    match c with
    | .start => specRunningSeconds rest (some t) 0
    | .pause => specRunningSeconds rest none (total + elapsedSince since t)
    | .resume => specRunningSeconds rest (some t) total
    | .stop => (total + elapsedSince since t) :: specRunningSeconds rest none 0

/-- Relation between a machine state and the reference measure's
accumulator: in `Running` they track the same segment start and the same
closed total; in the paused phases no interval is open and the totals
agree; in `Idle` both sides are about to be reset by the next `start`. -/
def traceInv (s : TimerState) (since : Option Nat) (total : Nat) : Prop :=
  match s.phase with
  | .idle => True
  | .running => s.started_at = since ∧ s.accumulated_seconds = total
  | .manuallyPaused => since = none ∧ s.accumulated_seconds = total
  | .autoPaused _ => since = none ∧ s.accumulated_seconds = total

/-- Errors raised by session-ledger edits. -/
inductive LedgerError where
  | NotFound
  | ConstraintViolation
  deriving DecidableEq, Repr

/-- An edit submitted for an existing session: new start and end times plus
the reflection fields (the shape submitted by the session editor form). -/
structure SessionPatch where
  start_time : Nat
  end_time : Nat
  reflection : Reflection
  deriving DecidableEq, Repr

/-- Apply an accepted patch to a stored session; `duration_minutes` is
recomputed from the edited start/end times. -/
def applyPatch (p : SessionPatch) (s : Session) : Session :=
  { s with
    start_time := p.start_time
    end_time := some p.end_time
    duration_minutes := ((p.end_time - p.start_time : Nat) : ℚ) / 60
    reflection := p.reflection }

/-- Modelled from the spec: `update(id, patch)` fails with `NotFound` for a
nonexistent id and with `ConstraintViolation` when the supplied
`end_time < start_time`; an accepted edit rewrites exactly the addressed
row. -/
def updateSession (L : List Session) (sid : Nat) (p : SessionPatch) :
    Except LedgerError (List Session) :=
  if L.all fun s => s.id != sid then .error .NotFound
  else if p.end_time < p.start_time then .error .ConstraintViolation
  else .ok (L.map fun s => if s.id = sid then applyPatch p s else s)

/-- Modelled from the spec: `delete(id)` fails with `NotFound` for a
nonexistent id and otherwise removes the addressed row. -/
def deleteSession (L : List Session) (sid : Nat) : Except LedgerError (List Session) :=
  if L.all fun s => s.id != sid then .error .NotFound
  else .ok (L.filter fun s => s.id != sid)

/-- Modelled from the spec: a rejected ledger edit is recovered locally —
the stored ledger is left unchanged and the error is reported. -/
def recoverLedger (L : List Session) : Except LedgerError (List Session) →
    List Session × Option LedgerError
  | .ok L' => (L', none)
  | .error e => (L, some e)

/-- A persisted session is well-formed: `end_time` is present (the ledger
never holds an open-ended record), `end_time ≥ start_time`, and
`duration_minutes ≥ 0`. -/
def sessionWF (s : Session) : Prop :=
  (∃ e, s.end_time = some e ∧ s.start_time ≤ e) ∧ 0 ≤ s.duration_minutes

/-- Ledgers reachable through the persistence interface: the empty ledger;
a session appended by a successful `stop()` whose wall clock has not run
backwards past the session's start; and the result of an accepted edit or
deletion. An in-progress session is never written, so no constructor adds
an open-ended row. -/
inductive ReachableLedger : List Session → Prop
  | nil : ReachableLedger []
  | stop_create {L : List Session} {ts : TimerState} {now st : Nat}
      {refl : Reflection} {s' : TimerState} {sess : Session} :
      ReachableLedger L →
      ts.session_start = some st → st ≤ now →
      stopTimer now refl ts = .ok (s', sess) →
      ReachableLedger (sess :: L)
  | update {L : List Session} {sid : Nat} {p : SessionPatch} {L' : List Session} :
      ReachableLedger L → updateSession L sid p = .ok L' → ReachableLedger L'
  | del {L : List Session} {sid : Nat} {L' : List Session} :
      ReachableLedger L → deleteSession L sid = .ok L' → ReachableLedger L'

/-- Modelled from the spec: a rejected timer command is recovered locally —
the `TimerState` is left unchanged and the error returned to the caller. -/
def recoverTimer (s : TimerState) : Except TimerError TimerState →
    TimerState × Option TimerError
  | .ok s' => (s', none)
  | .error e => (s, some e)

/-! ## Analytics Engine (modelled from the spec; the backend is not in the
source tree) -/

/-- Local calendar day index of a timestamp (seconds since epoch). -/
def dayOf (t : Nat) : Nat := t / 86400

/-- Minutes of practice logged on calendar day `d`: the sum of the stored
`duration_minutes` of the sessions whose `start_time` falls on that day. -/
def minutesOnDay (L : List Session) (d : Nat) : ℚ :=
  ((L.filter fun s => dayOf s.start_time == d).map fun s => s.duration_minutes).sum

/-- Modelled from the spec: minutes practiced on the current calendar day. -/
def today_minutes (L : List Session) (now : Nat) : ℚ :=
  minutesOnDay L (dayOf now)

/-- Modelled from the spec: all-time practiced minutes. -/
def total_minutes (L : List Session) : ℚ :=
  (L.map fun s => s.duration_minutes).sum

/-- Modelled from the spec:
`daily_goal_progress = min(today_minutes / daily_goal_minutes, 1.0)`. -/
def daily_goal_progress (L : List Session) (cfg : Settings) (now : Nat) : ℚ :=
  min (today_minutes L now / (cfg.daily_goal_minutes : ℚ)) 1

/-- Modelled from the spec:
`ten_thousand_hour_progress = min(total_minutes / 600000, 1.0)`. -/
def ten_thousand_hour_progress (L : List Session) : ℚ :=
  min (total_minutes L / 600000) 1

/-- Modelled from the spec:
`remaining_minutes = max(600000 − total_minutes, 0)`. -/
def remaining_minutes (L : List Session) : ℚ :=
  max (600000 - total_minutes L) 0

/-- Modelled from the spec: walk backward from day `d`, counting
consecutive days with at least one logged minute and breaking on the first
day with zero minutes. -/
def streakBack (L : List Session) : Nat → Nat
  | 0 => if 1 ≤ minutesOnDay L 0 then 1 else 0
  | d + 1 => if 1 ≤ minutesOnDay L (d + 1) then 1 + streakBack L d else 0

/-- Modelled from the spec: `streak_days`, the count of consecutive
calendar days ending at today each with ≥ 1 minute of logged practice. -/
def streak_days (L : List Session) (now : Nat) : Nat :=
  streakBack L (dayOf now)

/-- Modelled from the spec: one recomputation of the goal-reached edge.
Given the de-duplication flag, returns whether `goal_reached` is emitted
together with the updated flag; the flag is reset at midnight by starting
a day's recomputations from `false`. -/
def goalStep (goal today : ℚ) (fired : Bool) : Bool × Bool :=
  if fired = false ∧ goal ≤ today then (true, true) else (false, fired)

/-- Number of `goal_reached` emissions over a day's sequence of
`today_minutes` observations, threading the de-duplication flag. -/
def goalEmissions (goal : ℚ) : List ℚ → Bool → Nat
  | [], _ => 0
  | today :: rest, fired =>
      (if (goalStep goal today fired).1 then 1 else 0) +
        goalEmissions goal rest (goalStep goal today fired).2

/-! ## Frontend embeddings (from the TypeScript source) -/

/-- From `ProgressRing` (src/unnamed/part_014):
`Math.min(Math.max(progress, 0), 1)`. -/
def ProgressRing.normalized (progress : ℚ) : ℚ :=
  min (max progress 0) 1

/-- From the dashboard card (src/unnamed/part_012):
`Math.max(10000 - stats.total_hours, 0)`. -/
def dashboardRemainingHours (total_hours : ℚ) : ℚ :=
  max (10000 - total_hours) 0

/-- Payload of a `timer://status` event as consumed by `useTimer`
(src/unnamed/part_000); `started_at` is a millisecond epoch timestamp as
produced by `new Date(...).getTime()`. -/
structure TimerStatusPayload where
  running : Bool
  started_at : Option Int
  deriving DecidableEq, Repr

/-- From `useTimer` (src/unnamed/part_000), the `timer://status` handler:
`running = false` resets the displayed seconds to 0; while running with a
known `started_at` it becomes `Math.max(0, Math.floor((Date.now() -
started) / 1000))`; otherwise the previous value is kept. -/
def statusUpdate (now : Int) (p : TimerStatusPayload) (elapsed : Int) : Int :=
  if p.running = false then 0
  else
    match p.started_at with
    | some started => max 0 ((now - started).fdiv 1000)
    | none => elapsed

/-- From `useTimer` (src/unnamed/part_000), the active-session effect: a
present `start_time` yields `Math.max(0, Math.floor((Date.now() -
startTime) / 1000))`, an absent one resets to 0. -/
def activeSessionUpdate (now : Int) (start_time : Option Int) : Int :=
  match start_time with
  | some t => max 0 ((now - t).fdiv 1000)
  | none => 0

/-- The three updates `useTimer` applies to `elapsedSeconds`: a tick event
(whose payload, per the spec's tick definition, carries the nonnegative
total elapsed seconds), a status event, and fresh active-session data. -/
inductive TimerUiEvent where
  | tick (elapsed_seconds : Nat)
  | status (now : Int) (p : TimerStatusPayload)
  | activeData (now : Int) (start_time : Option Int)

/-- Apply one `useTimer` update to the displayed `elapsedSeconds`. -/
def applyUiEvent (elapsed : Int) : TimerUiEvent → Int
  | .tick n => (n : Int)
  | .status now p => statusUpdate now p elapsed
  | .activeData now st => activeSessionUpdate now st

/-! ## Concrete fixtures used by witnesses -/

/-- A running state: segment started at 30s with 5s already accumulated. -/
def exRunning : TimerState :=
  { phase := .running
    started_at := some 30
    accumulated_seconds := 5
    current_session_id := some 1
    session_start := some 30 }

/-- A manually paused state with 40s accumulated. -/
def exPaused : TimerState :=
  { phase := .manuallyPaused
    started_at := none
    accumulated_seconds := 40
    current_session_id := some 1
    session_start := some 30 }

/-- The session persisted by `stopTimer 60 {} exRunning`. -/
def exSess : Session :=
  { id := 1
    start_time := 30
    end_time := some 60
    duration_minutes := (35 : ℚ) / 60
    reflection := {} }

/-- Settings with a 5-minute idle timeout and `slack` blocked. -/
def exSettings : Settings :=
  { skill_name := "guitar"
    daily_goal_minutes := 60
    idle_timeout_minutes := 5
    productivity_mode_enabled := true
    allowed_apps := []
    blocked_apps := ["slack"] }

/-! ## Theorems -/

/-- C2: a successful `stop()` always resets the machine to the initial
`Idle` state (after building the completed session), and `start()` invoked
in `Idle` yields `Running` with `accumulated_seconds = 0`,
`started_at = now` and the freshly allocated `current_session_id`. -/
theorem stop_leaves_idle_start_leaves_running :
    (∀ (now : Nat) (refl : Reflection) (s s' : TimerState) (sess : Session),
        stopTimer now refl s = .ok (s', sess) →
        s'.phase = .idle ∧ s' = TimerState.initial) ∧
    (∀ (now sid : Nat) (u : TimerState), u.phase = .idle →
        ∃ u', startTimer now sid u = .ok u' ∧ u'.phase = .running ∧
          u'.accumulated_seconds = 0 ∧ u'.started_at = some now ∧
          u'.current_session_id = some sid) := by
  constructor
  · intro now refl s s' sess h
    cases hp : s.phase <;> simp [stopTimer, hp] at h
    all_goals exact ⟨by rw [← h.1]; rfl, by rw [← h.1]⟩
  · intro now sid u hu
    refine ⟨{ phase := .running, started_at := some now, accumulated_seconds := 0,
              current_session_id := some sid, session_start := some now },
            ?_, rfl, rfl, rfl, rfl⟩
    simp [startTimer, hu]

/-- Witness for C2 at concrete inputs: stopping `exRunning` at 60s and
starting from the initial state. -/
theorem stop_leaves_idle_start_leaves_running_witness :
    (TimerState.initial.phase = Phase.idle ∧ TimerState.initial = TimerState.initial) ∧
    (∃ u', startTimer 0 7 TimerState.initial = .ok u' ∧ u'.phase = .running ∧
      u'.accumulated_seconds = 0 ∧ u'.started_at = some 0 ∧
      u'.current_session_id = some 7) :=
  ⟨stop_leaves_idle_start_leaves_running.1 60 {} exRunning TimerState.initial exSess (by rfl),
   stop_leaves_idle_start_leaves_running.2 0 7 TimerState.initial rfl⟩

/-- C7: a command issued in a phase that forbids it is rejected with the
specific error and leaves the `TimerState` unchanged: `start` fails with
`AlreadyRunning` outside `Idle`, `pause` with `NotRunning` outside
`Running`, `resume` with `NotPaused` outside `ManuallyPaused`, and `stop`
fails (with `NotRunning`) exactly in `Idle`. -/
theorem rejected_commands_leave_state_unchanged :
    (∀ (now sid : Nat) (s : TimerState), s.phase ≠ .idle →
        recoverTimer s (startTimer now sid s) = (s, some .AlreadyRunning)) ∧
    (∀ (now : Nat) (s : TimerState), s.phase ≠ .running →
        recoverTimer s (pauseTimer now s) = (s, some .NotRunning)) ∧
    (∀ (now : Nat) (s : TimerState), s.phase ≠ .manuallyPaused →
        recoverTimer s (resumeTimer now s) = (s, some .NotPaused)) ∧
    (∀ (now : Nat) (refl : Reflection) (s : TimerState), s.phase = .idle →
        stopTimer now refl s = .error .NotRunning) ∧
    (∀ (now : Nat) (refl : Reflection) (s : TimerState), s.phase ≠ .idle →
        ∃ pr, stopTimer now refl s = .ok pr) := by
  refine ⟨?_, ?_, ?_, ?_, ?_⟩
  · intro now sid s hs
    cases hp : s.phase <;> simp [hp] at hs ⊢ <;> simp [startTimer, recoverTimer, hp]
  · intro now s hs
    cases hp : s.phase <;> simp [hp] at hs ⊢ <;> simp [pauseTimer, recoverTimer, hp]
  · intro now s hs
    cases hp : s.phase <;> simp [hp] at hs ⊢ <;> simp [resumeTimer, recoverTimer, hp]
  · intro now refl s hs
    simp [stopTimer, hs]
  · intro now refl s hs
    cases hp : s.phase
    · exact absurd hp hs
    all_goals
      refine ⟨(TimerState.initial,
        { id := s.current_session_id.getD 0
          start_time := s.session_start.getD now
          end_time := some now
          duration_minutes := (stopSeconds now s : ℚ) / 60
          reflection := refl }), ?_⟩
    all_goals simp [stopTimer, hp]

/-- Witness for C7 at concrete inputs: every command issued in a phase
that forbids it, at concrete states. -/
theorem rejected_commands_leave_state_unchanged_witness :
    recoverTimer exRunning (startTimer 100 9 exRunning) = (exRunning, some .AlreadyRunning) ∧
    recoverTimer exPaused (pauseTimer 100 exPaused) = (exPaused, some .NotRunning) ∧
    recoverTimer exRunning (resumeTimer 100 exRunning) = (exRunning, some .NotPaused) ∧
    stopTimer 100 {} TimerState.initial = .error .NotRunning ∧
    ∃ pr, stopTimer 100 {} exPaused = .ok pr :=
  ⟨rejected_commands_leave_state_unchanged.1 100 9 exRunning (by decide),
   rejected_commands_leave_state_unchanged.2.1 100 exPaused (by decide),
   rejected_commands_leave_state_unchanged.2.2.1 100 exRunning (by decide),
   rejected_commands_leave_state_unchanged.2.2.2.1 100 {} TimerState.initial rfl,
   rejected_commands_leave_state_unchanged.2.2.2.2 100 {} exPaused (by decide)⟩

/-- C3: on a tick in `Running` where the idle-timeout condition and the
blocked-app condition hold simultaneously, the machine moves to
`AutoPaused` with reason `Idle` — the idle check takes precedence — and
the recorded phase carries exactly that one cause. -/
theorem autopause_idle_takes_precedence (now : Nat) (cfg : Settings)
    (idleSecs : Nat) (app : String) (s : TimerState)
    (hrun : s.phase = .running)
    (hidle : idleCond cfg idleSecs = true)
    (hblocked : blockedCond cfg app = true) :
    (tickTimer now cfg idleSecs app s).phase = .autoPaused .idle ∧
    ∀ r, (tickTimer now cfg idleSecs app s).phase = .autoPaused r → r = .idle := by
  have h : (tickTimer now cfg idleSecs app s).phase = .autoPaused .idle := by
    simp [tickTimer, hrun, hidle]
  exact ⟨h, fun r hr => by rw [h] at hr; exact (Phase.autoPaused.injEq _ _ ▸ hr.symm ▸ rfl)⟩

/-- Witness for C3: with a 5-minute idle timeout, 301 idle seconds and the
blocked app `Slack` in the foreground, a tick from `exRunning` auto-pauses
with reason `Idle`. -/
theorem autopause_idle_takes_precedence_witness :
    (tickTimer 60 exSettings 301 "Slack" exRunning).phase = .autoPaused .idle ∧
    ∀ r, (tickTimer 60 exSettings 301 "Slack" exRunning).phase = .autoPaused r →
      r = .idle :=
  autopause_idle_takes_precedence 60 exSettings 301 "Slack" exRunning rfl
    (by decide) (by decide)

/-- C5: with a positive daily goal and nonnegative stored durations, the
analytics ratios are clamped — `daily_goal_progress` and
`ten_thousand_hour_progress` lie in `[0,1]` and `remaining_minutes` is
never negative — and the frontend clamps agree: `ProgressRing` normalizes
its input into `[0,1]` and the dashboard's remaining-hours readout is
never negative. -/
theorem analytics_progress_bounds (L : List Session) (cfg : Settings) (now : Nat)
    (hgoal : 0 < cfg.daily_goal_minutes)
    (hdur : ∀ s ∈ L, 0 ≤ s.duration_minutes) :
    (0 ≤ daily_goal_progress L cfg now ∧ daily_goal_progress L cfg now ≤ 1) ∧
    (0 ≤ ten_thousand_hour_progress L ∧ ten_thousand_hour_progress L ≤ 1) ∧
    0 ≤ remaining_minutes L ∧
    (∀ p : ℚ, 0 ≤ ProgressRing.normalized p ∧ ProgressRing.normalized p ≤ 1) ∧
    (∀ t : ℚ, 0 ≤ dashboardRemainingHours t) := by
  have htoday : 0 ≤ today_minutes L now := by
    refine List.sum_nonneg ?_
    intro x hx
    simp only [List.mem_map, List.mem_filter] at hx
    obtain ⟨s, ⟨hsL, _⟩, rfl⟩ := hx
    exact hdur s hsL
  have htotal : 0 ≤ total_minutes L := by
    refine List.sum_nonneg ?_
    intro x hx
    simp only [List.mem_map] at hx
    obtain ⟨s, hsL, rfl⟩ := hx
    exact hdur s hsL
  refine ⟨⟨le_min ?_ zero_le_one, min_le_right _ _⟩,
          ⟨le_min ?_ zero_le_one, min_le_right _ _⟩,
          le_max_right _ _, ?_, ?_⟩
  · exact div_nonneg htoday (by exact_mod_cast hgoal.le)
  · exact div_nonneg htotal (by norm_num)
  · intro p
    exact ⟨le_min (le_max_right _ _) zero_le_one, min_le_right _ _⟩
  · intro t
    exact le_max_right _ _

/-- Witness for C5: the bounds at a concrete ledger and settings. -/
theorem analytics_progress_bounds_witness :
    (0 ≤ daily_goal_progress [exSess] exSettings 100 ∧
      daily_goal_progress [exSess] exSettings 100 ≤ 1) ∧
    (0 ≤ ten_thousand_hour_progress [exSess] ∧
      ten_thousand_hour_progress [exSess] ≤ 1) ∧
    0 ≤ remaining_minutes [exSess] ∧
    (∀ p : ℚ, 0 ≤ ProgressRing.normalized p ∧ ProgressRing.normalized p ≤ 1) ∧
    (∀ t : ℚ, 0 ≤ dashboardRemainingHours t) :=
  analytics_progress_bounds [exSess] exSettings 100 (by decide)
    (by intro s hs; simp at hs; subst hs; simp [exSess]; norm_num)

/-- The de-duplication flag, once set, suppresses every further emission. -/
theorem goalEmissions_fired (goal : ℚ) (obs : List ℚ) :
    goalEmissions goal obs true = 0 := by
  induction obs with
  | nil => rfl
  | cons o rest ih => simp [goalEmissions, goalStep, ih]

/-- C6: over a day's recomputations (the de-duplication flag starting
`false` after its midnight reset), `goal_reached` is emitted exactly once
when some recomputation observes `today_minutes ≥ daily_goal_minutes` and
never otherwise, regardless of how many additional qualifying ticks occur;
a flag already set suppresses every emission. In particular a day whose
observations reach a 60-minute goal exactly emits once. -/
theorem goal_reached_fires_once_per_day :
    (∀ (goal : ℚ) (obs : List ℚ),
        goalEmissions goal obs false =
          (if obs.any (fun o => decide (goal ≤ o)) then 1 else 0)) ∧
    (∀ (goal : ℚ) (obs : List ℚ), goalEmissions goal obs true = 0) ∧
    goalEmissions 60 [30, 60, 60, 75] false = 1 := by
  have key : ∀ (goal : ℚ) (obs : List ℚ),
      goalEmissions goal obs false =
        (if obs.any (fun o => decide (goal ≤ o)) then 1 else 0) := by
    intro goal obs
    induction obs with
    | nil => rfl
    | cons o rest ih =>
        by_cases h : goal ≤ o
        · simp [goalEmissions, goalStep, h, goalEmissions_fired]
        · simp [goalEmissions, goalStep, h, ih]
  refine ⟨key, goalEmissions_fired, ?_⟩
  rw [key]
  norm_num

/-- C8: ledger edits fail as specified — `update` and `delete` answer
`NotFound` for a nonexistent id, and an edit supplying
`end_time < start_time` answers `ConstraintViolation` with the stored
ledger left unchanged (neither clamped nor partially modified). -/
theorem ledger_edit_errors (L : List Session) (sid : Nat) (p : SessionPatch) :
    ((∀ s ∈ L, s.id ≠ sid) →
      updateSession L sid p = .error .NotFound ∧
      deleteSession L sid = .error .NotFound) ∧
    (p.end_time < p.start_time →
      recoverLedger L (updateSession L sid p) = (L, some .NotFound) ∨
      recoverLedger L (updateSession L sid p) = (L, some .ConstraintViolation)) ∧
    ((∃ s ∈ L, s.id = sid) → p.end_time < p.start_time →
      updateSession L sid p = .error .ConstraintViolation ∧
      recoverLedger L (updateSession L sid p) = (L, some .ConstraintViolation)) := by
  have hall : (L.all fun s => s.id != sid) = true ↔ ∀ s ∈ L, s.id ≠ sid := by
    simp [List.all_eq_true]
  refine ⟨?_, ?_, ?_⟩
  · intro h
    rw [updateSession, deleteSession, if_pos (hall.mpr h), if_pos (hall.mpr h)]
    exact ⟨rfl, rfl⟩
  · intro hlt
    rw [updateSession]
    by_cases hfound : (L.all fun s => s.id != sid) = true
    · rw [if_pos hfound]; exact Or.inl rfl
    · rw [if_neg hfound, if_pos hlt]; exact Or.inr rfl
  · intro hex hlt
    have hfound : ¬ (L.all fun s => s.id != sid) = true := by
      obtain ⟨s, hsL, hsid⟩ := hex
      intro hc
      exact (hall.mp hc) s hsL hsid
    rw [updateSession, if_neg hfound, if_pos hlt]
    exact ⟨rfl, rfl⟩

/-- Witness for C8: on the one-session ledger `[exSess]` (id 1), editing or
deleting id 2 answers `NotFound`, and an id-1 edit with `end_time <
start_time` answers `ConstraintViolation` leaving the ledger unchanged. -/
theorem ledger_edit_errors_witness :
    (updateSession [exSess] 2 ⟨100, 50, {}⟩ = .error .NotFound ∧
      deleteSession [exSess] 2 = .error .NotFound) ∧
    (updateSession [exSess] 1 ⟨100, 50, {}⟩ = .error .ConstraintViolation ∧
      recoverLedger [exSess] (updateSession [exSess] 1 ⟨100, 50, {}⟩) =
        ([exSess], some .ConstraintViolation)) :=
  ⟨(ledger_edit_errors [exSess] 2 ⟨100, 50, {}⟩).1
      (by intro s hs; simp at hs; subst hs; simp [exSess]),
   (ledger_edit_errors [exSess] 1 ⟨100, 50, {}⟩).2.2
      ⟨exSess, by simp, by simp [exSess]⟩ (by decide)⟩

/-- C9: every ledger reachable through the persistence interface holds only
well-formed rows — `end_time` present (never an open-ended record),
`end_time ≥ start_time` and `duration_minutes ≥ 0`. -/
theorem reachable_ledger_sessions_wf {L : List Session} (h : ReachableLedger L) :
    ∀ s ∈ L, sessionWF s := by
  induction h with
  | nil =>
      intro s hs
      simp at hs
  | @stop_create L ts now st refl s' sess hL hst hle hstop ih =>
      intro s hs
      rcases List.mem_cons.mp hs with rfl | hmem
      · cases hp : ts.phase <;> rw [stopTimer] at hstop <;> simp [hp] at hstop
        all_goals
          refine ⟨⟨now, by rw [← hstop.2], ?_⟩, ?_⟩
        all_goals rw [← hstop.2]
        · simpa [hst] using hle
        · exact div_nonneg (Nat.cast_nonneg _) (by norm_num)
        · simpa [hst] using hle
        · exact div_nonneg (Nat.cast_nonneg _) (by norm_num)
        · simpa [hst] using hle
        · exact div_nonneg (Nat.cast_nonneg _) (by norm_num)
      · exact ih s hmem
  | @update L sid p L' hL hupd ih =>
      intro s hs
      rw [updateSession] at hupd
      split at hupd
      · simp at hupd
      · split at hupd
        · simp at hupd
        · rename_i hnlt
          injection hupd with hupd
          subst hupd
          obtain ⟨t, htL, hts⟩ := List.mem_map.mp hs
          by_cases hid : t.id = sid
          · rw [if_pos hid] at hts
            subst hts
            refine ⟨⟨p.end_time, rfl, ?_⟩, ?_⟩
            · exact Nat.le_of_not_lt hnlt
            · exact div_nonneg (Nat.cast_nonneg _) (by norm_num)
          · rw [if_neg hid] at hts
            subst hts
            exact ih t htL
  | @del L sid L' hL hdel ih =>
      intro s hs
      rw [deleteSession] at hdel
      split at hdel
      · simp at hdel
      · injection hdel with hdel
        subst hdel
        exact ih s (List.mem_of_mem_filter hs)

/-- Stopping `exRunning` at 60s persists exactly `exSess`. -/
theorem stopTimer_exRunning :
    stopTimer 60 {} exRunning = .ok (TimerState.initial, exSess) := by rfl

/-- Witness for C9: the singleton ledger produced by stopping `exRunning`
at 60s is reachable, and its row is well-formed. -/
theorem reachable_ledger_sessions_wf_witness : sessionWF exSess :=
  reachable_ledger_sessions_wf
    (@ReachableLedger.stop_create [] exRunning 60 30 {} TimerState.initial exSess
      ReachableLedger.nil rfl (by decide) stopTimer_exRunning)
    exSess (by simp)

/-- Every `useTimer` update preserves nonnegativity of the displayed
elapsed seconds. -/
theorem applyUiEvent_nonneg (x : Int) (e : TimerUiEvent) (hx : 0 ≤ x) :
    0 ≤ applyUiEvent x e := by
  cases e with
  | tick n => exact Int.ofNat_nonneg n
  | status now p =>
      rw [applyUiEvent, statusUpdate]
      by_cases hr : p.running = false
      · simp [hr]
      · rw [if_neg hr]
        cases p.started_at with
        | some started => exact le_max_left _ _
        | none => exact hx
  | activeData now st =>
      cases st with
      | some t => exact le_max_left _ _
      | none => exact le_refl _

/-- C10: in `useTimer`, the displayed `elapsedSeconds` stays nonnegative
across every update sequence; a status event with `running = false` (or
the absence of an active session) resets it to 0; while running it becomes
`max(0, floor((now − started_at) / 1000))`, so a `started_at` in the
future yields 0, never a negative value. -/
theorem elapsed_seconds_never_negative :
    (∀ (x : Int) (e : TimerUiEvent), 0 ≤ x → 0 ≤ applyUiEvent x e) ∧
    (∀ es : List TimerUiEvent, 0 ≤ es.foldl applyUiEvent 0) ∧
    (∀ (now : Int) (p : TimerStatusPayload) (x : Int), p.running = false →
        statusUpdate now p x = 0) ∧
    (∀ (now started x : Int), now < started →
        statusUpdate now ⟨true, some started⟩ x = 0) ∧
    (∀ now : Int, activeSessionUpdate now none = 0) := by
  have hfold : ∀ (es : List TimerUiEvent) (x : Int), 0 ≤ x →
      0 ≤ es.foldl applyUiEvent x := by
    intro es
    induction es with
    | nil => intro x hx; exact hx
    | cons e rest ih => intro x hx; exact ih _ (applyUiEvent_nonneg x e hx)
  refine ⟨applyUiEvent_nonneg, fun es => hfold es 0 le_rfl, ?_, ?_, fun _ => rfl⟩
  · intro now p x hr
    simp [statusUpdate, hr]
  · intro now started x hlt
    rw [statusUpdate]
    simp only [Bool.true_eq_false, if_false]
    exact max_eq_left (Int.fdiv_neg' (by omega) (by norm_num)).le

/-- Witness for C10 at concrete inputs: a tick of 5s from 0, a
`running = false` status reset, a status event whose `started_at` lies 4
seconds in the future, and absent active-session data. -/
theorem elapsed_seconds_never_negative_witness :
    0 ≤ applyUiEvent 0 (.tick 5) ∧
    statusUpdate 1000 { running := false, started_at := none } 7 = 0 ∧
    statusUpdate 1000 { running := true, started_at := some 5000 } 7 = 0 ∧
    activeSessionUpdate 1000 none = 0 :=
  ⟨elapsed_seconds_never_negative.1 0 (.tick 5) le_rfl,
   elapsed_seconds_never_negative.2.2.1 1000 { running := false, started_at := none } 7 rfl,
   elapsed_seconds_never_negative.2.2.2.1 1000 5000 7 (by norm_num),
   elapsed_seconds_never_negative.2.2.2.2 1000⟩

/-- A session of `dur` minutes starting one hour into calendar day `day`. -/
def mkDaySession (i day : Nat) (dur : ℚ) : Session :=
  { id := i
    start_time := day * 86400 + 3600
    end_time := some (day * 86400 + 3720)
    duration_minutes := dur
    reflection := {} }

/-- Sessions of 2 minutes on days D, D+1 and D+3, with D = calendar day 0. -/
def streakL1 : List Session :=
  [mkDaySession 1 0 2, mkDaySession 2 1 2, mkDaySession 3 3 2]

/-- Sessions of 2 minutes on days D and D+2 only, with D = calendar day 0. -/
def streakL2 : List Session :=
  [mkDaySession 1 0 2, mkDaySession 2 2 2]

/-- A clock two hours into calendar day 3. -/
def now3 : Nat := 3 * 86400 + 7200

/-- A clock two hours into calendar day 2. -/
def now2 : Nat := 2 * 86400 + 7200

/-- Characterization of the backward streak walk: the streak from day `d`
is at least `k` exactly when the `k` most recent days (day `d` included)
each carry at least one logged minute. -/
theorem streakBack_le_iff (L : List Session) :
    ∀ d k : Nat, k ≤ streakBack L d ↔
      (k ≤ d + 1 ∧ ∀ i < k, 1 ≤ minutesOnDay L (d - i)) := by
  intro d
  induction d with
  | zero =>
      intro k
      rw [streakBack]
      by_cases h : 1 ≤ minutesOnDay L 0
      · rw [if_pos h]
        constructor
        · intro hk
          exact ⟨hk, fun i _ => by simpa using h⟩
        · exact fun hk => hk.1
      · rw [if_neg h]
        constructor
        · intro hk
          have hk0 : k = 0 := Nat.le_zero.mp hk
          subst hk0
          exact ⟨Nat.zero_le _, fun i hi => absurd hi (Nat.not_lt_zero i)⟩
        · intro ⟨hk1, hall⟩
          cases k with
          | zero => exact Nat.le_refl 0
          | succ j => exact absurd (by simpa using hall 0 (Nat.succ_pos j)) h
  | succ d ih =>
      intro k
      rw [streakBack]
      by_cases h : 1 ≤ minutesOnDay L (d + 1)
      · rw [if_pos h]
        cases k with
        | zero => simp
        | succ j =>
            constructor
            · intro hk
              have hjs : j ≤ streakBack L d := by omega
              obtain ⟨hj1, hjall⟩ := (ih j).mp hjs
              refine ⟨by omega, ?_⟩
              intro i hi
              cases i with
              | zero => simpa using h
              | succ i' =>
                  have hidx : d + 1 - (i' + 1) = d - i' := by omega
                  rw [hidx]
                  exact hjall i' (by omega)
            · intro ⟨hk1, hall⟩
              have hjall : ∀ i < j, 1 ≤ minutesOnDay L (d - i) := by
                intro i hi
                have hidx : d - i = d + 1 - (i + 1) := by omega
                rw [hidx]
                exact hall (i + 1) (by omega)
              have hjs : j ≤ streakBack L d := (ih j).mpr ⟨by omega, hjall⟩
              omega
      · rw [if_neg h]
        constructor
        · intro hk
          have hk0 : k = 0 := Nat.le_zero.mp hk
          subst hk0
          exact ⟨Nat.zero_le _, fun i hi => absurd hi (Nat.not_lt_zero i)⟩
        · intro ⟨hk1, hall⟩
          cases k with
          | zero => exact Nat.le_refl 0
          | succ j => exact absurd (by simpa using hall 0 (Nat.succ_pos j)) h

/-- C4 counterexample: with ≥1-minute sessions on days D, D+1 and D+3
(here D = calendar day 0) and `now` on day D+3, `streak_days` is 1 — the
zero-minute day D+2 breaks the walk — not 2 as the claim states. -/
theorem streak_first_scenario_counterexample :
    streak_days streakL1 now3 = 1 ∧ streak_days streakL1 now3 ≠ 2 := by
  have h : streak_days streakL1 now3 = 1 := by
    simp [streak_days, dayOf, streakBack, minutesOnDay, streakL1, mkDaySession, now3]
  exact ⟨h, by rw [h]; omega⟩

/-- C4 (amended): `streak_days` counts consecutive calendar days walking
backward from today, each with at least one logged minute, breaking on the
first zero-minute day: the streak is at least `k` exactly when the `k`
most recent days all have ≥ 1 minute. In the first scenario (sessions on
D, D+1, D+3, now on D+3) the gap at D+2 limits the streak to 1; in the
second (sessions on D and D+2, now on D+2) it is 1. -/
theorem streak_days_characterization :
    (∀ (L : List Session) (now k : Nat),
        k ≤ streak_days L now ↔
          (k ≤ dayOf now + 1 ∧ ∀ i < k, 1 ≤ minutesOnDay L (dayOf now - i))) ∧
    streak_days streakL1 now3 = 1 ∧ streak_days streakL2 now2 = 1 := by
  refine ⟨fun L now k => streakBack_le_iff L (dayOf now) k, ?_, ?_⟩
  · simp [streak_days, dayOf, streakBack, minutesOnDay, streakL1, mkDaySession, now3]
  · simp [streak_days, dayOf, streakBack, minutesOnDay, streakL2, mkDaySession, now2]

/-- Witness for C4's amended claim at a concrete input: the
characterization applied on the first scenario's ledger. -/
theorem streak_days_characterization_witness :
    (1 ≤ streak_days streakL1 now3 ↔
      (1 ≤ dayOf now3 + 1 ∧ ∀ i < 1, 1 ≤ minutesOnDay streakL1 (dayOf now3 - i))) ∧
    streak_days streakL1 now3 = 1 :=
  ⟨streak_days_characterization.1 streakL1 now3 1,
   streak_days_characterization.2.1⟩

/-- Machine execution and the spec-side running-time measure advance in
lockstep: from any state related to the measure accumulator by `traceInv`,
a successful run persists sessions whose `duration_minutes` are exactly
the measured Running-phase wall-clock seconds divided by 60. -/
theorem execTrace_durations (tr : List (Nat × Cmd)) :
    ∀ (s : TimerState) (nid : Nat) (since : Option Nat) (total : Nat)
      (s' : TimerState) (sessions : List Session),
      traceInv s since total →
      execTrace tr s nid = .ok (s', sessions) →
      sessions.map (fun x => x.duration_minutes) =
        List.map (fun n : Nat => (n : ℚ) / 60) (specRunningSeconds tr since total) := by
  induction tr with
  | nil =>
      intro s nid since total s' sessions _ h
      simp only [execTrace, Except.ok.injEq, Prod.mk.injEq] at h
      rw [← h.2]
      simp [specRunningSeconds]
  | cons tc rest ih =>
      obtain ⟨t, c⟩ := tc
      intro s nid since total s' sessions hinv h
      cases c with
      | start =>
          rw [execTrace] at h
          cases hp : s.phase
          case idle =>
            simp only [startTimer, hp] at h
            rw [specRunningSeconds]
            refine ih _ (nid + 1) (some t) 0 s' sessions ?_ h
            exact ⟨rfl, rfl⟩
          all_goals simp [startTimer, hp] at h
      | pause =>
          rw [execTrace] at h
          cases hp : s.phase
          case running =>
            simp only [pauseTimer, hp] at h
            simp only [traceInv, hp] at hinv
            rw [specRunningSeconds]
            refine ih _ nid none (total + elapsedSince since t) s' sessions ?_ h
            refine ⟨rfl, ?_⟩
            show s.accumulated_seconds + elapsedSince s.started_at t =
              total + elapsedSince since t
            rw [hinv.1, hinv.2]
          all_goals simp [pauseTimer, hp] at h
      | resume =>
          rw [execTrace] at h
          cases hp : s.phase
          case manuallyPaused =>
            simp only [resumeTimer, hp] at h
            simp only [traceInv, hp] at hinv
            rw [specRunningSeconds]
            refine ih _ nid (some t) total s' sessions ?_ h
            exact ⟨rfl, hinv.2⟩
          all_goals simp [resumeTimer, hp] at h
      | stop =>
          rw [execTrace] at h
          have hsec : s.phase ≠ .idle → stopSeconds t s = total + elapsedSince since t := by
            intro hnp
            cases hp : s.phase
            · exact absurd hp hnp
            all_goals simp only [traceInv, hp] at hinv
            · simp [stopSeconds, hp, hinv.1, hinv.2]
            · simp [stopSeconds, hp, hinv.1, hinv.2, elapsedSince]
            · simp [stopSeconds, hp, hinv.1, hinv.2, elapsedSince]
          cases hp : s.phase
          case idle => simp [stopTimer, hp] at h
          all_goals
            simp only [stopTimer, hp] at h
            cases hrest : execTrace rest TimerState.initial nid with
            | error e => rw [hrest] at h; simp at h
            | ok pr =>
                obtain ⟨s'', tail⟩ := pr
                rw [hrest] at h
                simp only [Except.ok.injEq, Prod.mk.injEq] at h
                rw [← h.2, specRunningSeconds]
                simp only [List.map_cons]
                refine congrArg₂ _ ?_
                  (ih TimerState.initial nid none 0 s'' tail trivial hrest)
                show (stopSeconds t s : ℚ) / 60 = _
                rw [hsec (by rw [hp]; intro hc; cases hc)]

/-- C1: for every sequence of start/pause/resume/stop commands the state
machine accepts, each session persisted by a `stop` carries a
`duration_minutes` equal to that session's total Running-phase wall-clock
seconds divided by 60 — every manually-paused interval excluded exactly
(so in particular within one second of rounding tolerance). In particular
start, pause 30 seconds later, resume after 500 further paused seconds and
stop 30 seconds after that persists one session of exactly 1.0 minute. -/
theorem persisted_durations_match_running_time :
    (∀ (tr : List (Nat × Cmd)) (nid : Nat) (s' : TimerState)
        (sessions : List Session),
        execTrace tr TimerState.initial nid = .ok (s', sessions) →
        sessions.map (fun x => x.duration_minutes) =
          List.map (fun n : Nat => (n : ℚ) / 60) (specRunningSeconds tr none 0)) ∧
    (∃ s' sessions,
        execTrace [(100, .start), (130, .pause), (630, .resume), (660, .stop)]
            TimerState.initial 1 = .ok (s', sessions) ∧
        sessions.map (fun x => x.duration_minutes) = [1]) := by
  refine ⟨fun tr nid s' sessions h =>
    execTrace_durations tr TimerState.initial nid none 0 s' sessions trivial h, ?_⟩
  refine ⟨TimerState.initial,
    [{ id := 1, start_time := 100, end_time := some 660,
       duration_minutes := (60 : ℚ) / 60, reflection := {} }], by rfl, ?_⟩
  simp

/-- Witness for C1: the general duration theorem applied to the concrete
start/pause/resume/stop scenario trace. -/
theorem persisted_durations_match_running_time_witness :
    List.map (fun x => x.duration_minutes)
        [({ id := 1, start_time := 100, end_time := some 660,
            duration_minutes := (60 : ℚ) / 60, reflection := {} } : Session)] =
      List.map (fun n : Nat => (n : ℚ) / 60)
        (specRunningSeconds
          [(100, .start), (130, .pause), (630, .resume), (660, .stop)] none 0) :=
  persisted_durations_match_running_time.1
    [(100, .start), (130, .pause), (630, .resume), (660, .stop)]
    1 TimerState.initial _ (by rfl)

end MasteryTrack
